import Mathlib

/-!
Shallow embedding of the lender-qualification tool (src/app.js).

JavaScript numbers are modelled as exact rationals (`JsNum`, kept in
normalized form so that structural equality coincides with numeric
equality).  `parseFloat` is modelled on decimal-literal prefixes with
optional sign, fraction and exponent; the `Number(string)` coercion
behind `isNaN` is modelled for its full string grammar (decimal,
hex/octal/binary integer and Infinity forms), and the `isFinite` test
is modelled exactly by the IEEE-754 double overflow bound
2^1024 - 2^970 on the exact parsed value.  JavaScript strings are
Lean `String`s; the modelled character fragment is ASCII (case folding
and the whitespace class follow the ASCII subset of the JS spec).
CSV rows are association lists from column name to a tagged cell value
(`CellVal`), mirroring the loosely-typed row objects built by
`parseCSV` in the source.
-/

set_option maxRecDepth 100000

/-- Exact rational standing in for a finite JavaScript number.
Values produced by the embedded code are always in lowest terms with a
positive denominator, so structural equality is numeric equality. -/
structure JsNum where
  num : Int
  den : Nat
deriving DecidableEq, Repr

/-- Builds the normalized rational n / d (sign on the numerator,
lowest terms). `d = 0` never arises from the embedded code. -/
def JsNum.norm (n : Int) (d : Int) : JsNum :=
  if d = 0 then ⟨0, 1⟩
  else
    let s : Int := if d < 0 then -1 else 1
    let n2 := s * n
    let d2 := (s * d).toNat
    let g := Nat.gcd n2.natAbs d2
    ⟨n2 / (g : Int), d2 / g⟩

instance (n : Nat) : OfNat JsNum n := ⟨⟨n, 1⟩⟩

def JsNum.neg (a : JsNum) : JsNum := ⟨-a.num, a.den⟩

instance : Neg JsNum := ⟨JsNum.neg⟩

def JsNum.add (a b : JsNum) : JsNum :=
  JsNum.norm (a.num * b.den + b.num * a.den) (a.den * b.den)

instance : Add JsNum := ⟨JsNum.add⟩

def JsNum.sub (a b : JsNum) : JsNum :=
  JsNum.norm (a.num * b.den - b.num * a.den) (a.den * b.den)

instance : Sub JsNum := ⟨JsNum.sub⟩

def JsNum.mul (a b : JsNum) : JsNum :=
  JsNum.norm (a.num * b.num) (a.den * b.den)

instance : Mul JsNum := ⟨JsNum.mul⟩

/-- Strict comparison by cross multiplication (denominators are
non-negative). -/
def JsNum.blt (a b : JsNum) : Bool := a.num * b.den < b.num * a.den

instance : LT JsNum := ⟨fun a b => JsNum.blt a b = true⟩

instance (a b : JsNum) : Decidable (a < b) :=
  inferInstanceAs (Decidable (JsNum.blt a b = true))

instance : LE JsNum := ⟨fun a b => JsNum.blt b a = false⟩

instance (a b : JsNum) : Decidable (a ≤ b) :=
  inferInstanceAs (Decidable (JsNum.blt b a = false))

/-- Digit characters of a natural number, most significant first
(fuel-based so that it reduces in the kernel). -/
def natToCharsAux : Nat → Nat → List Char → List Char
  | 0, _, acc => acc
  | fuel + 1, n, acc =>
    if n = 0 then acc
    else natToCharsAux fuel (n / 10) (Char.ofNat (48 + n % 10) :: acc)

def natToString (n : Nat) : String :=
  if n = 0 then "0" else ⟨natToCharsAux (n + 1) n []⟩

/-- Decimal digits of the fractional part num/den (long division with
fuel; exact for the terminating decimals produced by the parser). -/
def fracChars : Nat → Nat → Nat → List Char
  | 0, _, _ => []
  | fuel + 1, n, den =>
    if n = 0 then []
    else Char.ofNat (48 + (n * 10) / den) :: fracChars fuel ((n * 10) % den) den

/-- Models JavaScript number-to-string conversion on the exact-decimal
fragment (no exponent notation). -/
def numToString (q : JsNum) : String :=
  let sign := if q.num < 0 then "-" else ""
  let ip := natToString (q.num.natAbs / q.den)
  let f := fracChars 40 (q.num.natAbs % q.den) q.den
  if f = [] then sign ++ ip else sign ++ ip ++ "." ++ (⟨f⟩ : String)

/-- ASCII fragment of the JavaScript whitespace class. -/
def isWs (c : Char) : Bool := c = ' ' || c = '\t' || c = '\n' || c = '\r'

def skipWs (l : List Char) : List Char := l.dropWhile isWs

def trimChars (l : List Char) : List Char :=
  (((l.dropWhile isWs).reverse).dropWhile isWs).reverse

/-- Models `String.prototype.trim`. -/
def jsTrim (s : String) : String := ⟨trimChars s.data⟩

/-- Models `String.prototype.toLowerCase` (ASCII fragment). -/
def jsToLower (s : String) : String := ⟨s.data.map Char.toLower⟩

/-- Does `needle` occur at the head of `hay`? -/
def subAt : List Char → List Char → Bool
  | [], _ => true
  | _ :: _, [] => false
  | a :: as, b :: bs => a == b && subAt as bs

def hasSub (needle : List Char) : List Char → Bool
  | [] => subAt needle []
  | h :: t => subAt needle (h :: t) || hasSub needle t

/-- Models `String.prototype.includes`. -/
def strIncludes (s sub : String) : Bool := hasSub sub.data s.data

/-- Models the regex test `/^\d+$/`. -/
def isAllDigits (s : String) : Bool :=
  !s.data.isEmpty && s.data.all Char.isDigit

-- State abbreviation mapping (source lines 6-17).
def stateAbbreviations : List (String × String) :=
  [("alabama", "al"), ("alaska", "ak"), ("arizona", "az"), ("arkansas", "ar"),
   ("california", "ca"), ("colorado", "co"), ("connecticut", "ct"), ("delaware", "de"),
   ("florida", "fl"), ("georgia", "ga"), ("hawaii", "hi"), ("idaho", "id"),
   ("illinois", "il"), ("indiana", "in"), ("iowa", "ia"), ("kansas", "ks"),
   ("kentucky", "ky"), ("louisiana", "la"), ("maine", "me"), ("maryland", "md"),
   ("massachusetts", "ma"), ("michigan", "mi"), ("minnesota", "mn"), ("mississippi", "ms"),
   ("missouri", "mo"), ("montana", "mt"), ("nebraska", "ne"), ("nevada", "nv"),
   ("new hampshire", "nh"), ("new jersey", "nj"), ("new mexico", "nm"), ("new york", "ny"),
   ("north carolina", "nc"), ("north dakota", "nd"), ("ohio", "oh"), ("oklahoma", "ok"),
   ("oregon", "or"), ("pennsylvania", "pa"), ("rhode island", "ri"), ("south carolina", "sc"),
   ("south dakota", "sd"), ("tennessee", "tn"), ("texas", "tx"), ("utah", "ut"),
   ("vermont", "vt"), ("virginia", "va"), ("washington", "wa"), ("west virginia", "wv"),
   ("wisconsin", "wi"), ("wyoming", "wy")]

def reverseStateMap : List (String × String) :=
  stateAbbreviations.map (fun p => (p.2, p.1))

/-- Lookup in a JS-object-like association list. -/
def assocFind (m : List (String × String)) (k : String) : Option String :=
  (m.find? (fun p => p.1 == k)).map (fun p => p.2)

/-- Models `normalizeState` (source lines 26-30). -/
def normalizeState (state : String) : String :=
  if state = "" then ""
  else
    let lower := jsTrim (jsToLower state)
    match assocFind stateAbbreviations lower with
    | some ab => ab
    | none => lower

/-- Models `word.charAt(0).toUpperCase() + word.slice(1)`. -/
def capWord (w : String) : String :=
  match w.data with
  | [] => ""
  | c :: t => ⟨Char.toUpper c :: t⟩

/-- Models `String.prototype.split(' ')` (split at every single space). -/
def splitOnSpace : List Char → List Char → List String
  | [], cur => [⟨cur.reverse⟩]
  | ' ' :: rest, cur => (⟨cur.reverse⟩ : String) :: splitOnSpace rest []
  | c :: rest, cur => splitOnSpace rest (c :: cur)

def joinSpace : List String → String
  | [] => ""
  | [s] => s
  | s :: rest => s ++ " " ++ joinSpace rest

/-- Models `getFullStateName` (source lines 32-41). -/
def getFullStateName (state : String) : String :=
  if state = "" then ""
  else
    let lower := jsTrim (jsToLower state)
    match assocFind reverseStateMap lower with
    | some name => joinSpace ((splitOnSpace name.data []).map capWord)
    | none => state

/-- Digit list to natural number, most significant first. -/
def digitsVal (l : List Char) : Nat :=
  l.foldl (fun acc c => acc * 10 + (c.toNat - 48)) 0

/-- Exponent suffix of a decimal literal.  Returns the scale factor and
the unconsumed input; an `e` not followed by digits is not consumed
(mirroring `parseFloat`, which ignores a malformed exponent). -/
def parseExp (l : List Char) : JsNum × List Char :=
  match l with
  | 'e' :: rest =>
    let (neg, r2) : Bool × List Char :=
      match rest with
      | '+' :: t => (false, t)
      | '-' :: t => (true, t)
      | _ => (false, rest)
    let (ds, r3) := r2.span Char.isDigit
    if ds = [] then (⟨1, 1⟩, l)
    else if neg then (JsNum.norm 1 ((10 : Int) ^ digitsVal ds), r3)
    else (JsNum.norm ((10 : Int) ^ digitsVal ds) 1, r3)
  | 'E' :: rest =>
    let (neg, r2) : Bool × List Char :=
      match rest with
      | '+' :: t => (false, t)
      | '-' :: t => (true, t)
      | _ => (false, rest)
    let (ds, r3) := r2.span Char.isDigit
    if ds = [] then (⟨1, 1⟩, l)
    else if neg then (JsNum.norm 1 ((10 : Int) ^ digitsVal ds), r3)
    else (JsNum.norm ((10 : Int) ^ digitsVal ds) 1, r3)
  | _ => (⟨1, 1⟩, l)

/-- Longest decimal-literal prefix: optional sign, digits, optional
fraction, optional exponent.  Returns the value and the rest of the
input, or `none` when no digit is found.  Shared core of the models of
`parseFloat` and of the `Number` coercion used by `isNaN`. -/
def parseDec (l : List Char) : Option (JsNum × List Char) :=
  let (sgn, l1) : Bool × List Char :=
    match l with
    | '+' :: t => (false, t)
    | '-' :: t => (true, t)
    | _ => (false, l)
  let (ds, l2) := l1.span Char.isDigit
  let (fs, l3) :=
    match l2 with
    | '.' :: t => t.span Char.isDigit
    | _ => (([] : List Char), l2)
  if ds = [] && fs = [] then none
  else
    let mant := JsNum.add ⟨(digitsVal ds : Int), 1⟩ (JsNum.norm (digitsVal fs) ((10 : Int) ^ fs.length))
    let (scale, l4) := parseExp l3
    let v := JsNum.mul mant scale
    some ((if sgn then JsNum.neg v else v), l4)

/-- Models `parseFloat` on a string: skip leading whitespace, parse the
longest decimal-literal prefix, ignore the rest; `none` plays NaN. -/
def parseFloatStr (s : String) : Option JsNum :=
  (parseDec (skipWs s.data)).map (fun p => p.1)

/-- Full-string parse of a decimal literal (the decimal-literal case
of the `Number(string)` coercion): the whole string, up to surrounding
whitespace, must be a decimal literal; an empty or all-whitespace
string coerces to 0. -/
def jsNumberStr (s : String) : Option JsNum :=
  let l := skipWs s.data
  match parseDec l with
  | some (q, rest) => if skipWs rest = [] then some q else none
  | none => if l = [] then some 0 else none

/-- Hexadecimal digit class of the JS number grammar. -/
def isHexDigit (c : Char) : Bool :=
  c.isDigit || ('a' ≤ c && c ≤ 'f') || ('A' ≤ c && c ≤ 'F')

/-- Octal digit class of the JS number grammar. -/
def isOctDigit (c : Char) : Bool := '0' ≤ c && c ≤ '7'

/-- Binary digit class of the JS number grammar. -/
def isBinDigit (c : Char) : Bool := c = '0' || c = '1'

/-- After a radix marker (0x/0o/0b): at least one digit of the radix,
then only trailing whitespace. -/
def radixTail (p : Char → Bool) (rest : List Char) : Bool :=
  let (ds, r) := rest.span p
  !ds.isEmpty && (skipWs r).isEmpty

/-- The literal word Infinity followed by only trailing whitespace. -/
def infinityTail (l : List Char) : Bool :=
  match l with
  | 'I' :: 'n' :: 'f' :: 'i' :: 'n' :: 'i' :: 't' :: 'y' :: r => (skipWs r).isEmpty
  | _ => false

/-- Does the string match the full `Number(string)` grammar (i.e. is
`isNaN(s)` false)?  Besides decimal literals the grammar accepts
unsigned hex/octal/binary integer forms and signed Infinity; an empty
or all-whitespace string coerces to 0, hence is not NaN. -/
def numberGrammar (s : String) : Bool :=
  let l := skipWs s.data
  if l.isEmpty then true
  else
    (match l with
     | '0' :: x :: rest =>
       if x = 'x' || x = 'X' then radixTail isHexDigit rest
       else if x = 'o' || x = 'O' then radixTail isOctDigit rest
       else if x = 'b' || x = 'B' then radixTail isBinDigit rest
       else false
     | _ => false)
    || (match l with
        | '+' :: r => infinityTail r
        | '-' :: r => infinityTail r
        | _ => infinityTail l)
    || (match parseDec l with
        | some p => (skipWs p.2).isEmpty
        | none => false)

/-- Exact overflow bound of IEEE-754 double precision: a correctly
rounded result is finite exactly when its magnitude is strictly below
2^1024 - 2^970, the round-to-even midpoint above the largest finite
double. -/
def maxFiniteBound : Nat := 2 ^ 1024 - 2 ^ 970

/-- Does this exact value round to a finite double?  Models the
`isFinite` test on a value produced by `parseFloat`. -/
def floatFinite (q : JsNum) : Bool := q.num.natAbs < maxFiniteBound * q.den

/-- A cell of a parsed row: JS dynamic value, number or string. -/
inductive CellVal where
  | num (q : JsNum)
  | str (s : String)
deriving DecidableEq, Repr

/-- A parsed row: JS object mapping column names to cell values. -/
def Row : Type := List (String × CellVal)

instance : DecidableEq Row := inferInstanceAs (DecidableEq (List (String × CellVal)))

instance : Membership (String × CellVal) Row := inferInstanceAs (Membership _ (List (String × CellVal)))

/-- Property read `row[key]`; `none` plays `undefined`. -/
def getCell (r : Row) (k : String) : Option CellVal :=
  (r.find? (fun p => p.1 == k)).map (fun p => p.2)

/-- Property write `row[key] = v` (last write wins). -/
def objSet (r : Row) (k : String) (v : CellVal) : Row :=
  r.filter (fun p => !(p.1 == k)) ++ [(k, v)]

/-- JS truthiness of a cell value (0 and the empty string are falsy). -/
def jsTruthy (v : CellVal) : Bool :=
  match v with
  | .num q => !(q.num == 0)
  | .str s => !(s == "")

/-- Models `String(v)` on a cell value. -/
def cellToString (v : CellVal) : String :=
  match v with
  | .num q => numToString q
  | .str s => s

/-- Models `String(lender[key] || '')`: fields that are absent or falsy
read as the empty string. -/
def strField (r : Row) (k : String) : String :=
  match getCell r k with
  | none => ""
  | some v => if jsTruthy v then cellToString v else ""

/-- Models string interpolation of a possibly-absent cell. -/
def templateCell (o : Option CellVal) : String :=
  match o with
  | none => "undefined"
  | some v => cellToString v

/-- Models `parseFloat(lender[key])`: an absent field coerces to the
string "undefined", hence NaN. -/
def jsParseFloat (o : Option CellVal) : Option JsNum :=
  match o with
  | none => none
  | some (.num q) => some q
  | some (.str s) => parseFloatStr s

/-- Cell-type inference of parseCSV (source lines 91-97): a non-empty
value passing the `isNaN` test (full Number grammar) is stored as the
`parseFloat` number when that is non-NaN and finite, else the string
is kept.  The string "Infinity" reaches `parseFloat` in JS as Infinity
and is rejected by the `isFinite` test; the model reaches the same
string-kept outcome through `parseFloatStr`'s `none`. -/
def convertCell (v : String) : CellVal :=
  if v != "" && numberGrammar v && v != "" then
    match parseFloatStr v with
    | some n => if floatFinite n then .num n else .str v
    | none => .str v
  else .str v

/-- The per-line character scan of parseCSV (source lines 55-77): a
quote toggles the in-quotes state, a doubled quote inside quotes emits
one literal quote, an unquoted comma ends the field, fields are
trimmed. -/
def parseLineAux : Nat → List Char → Bool → List Char → List String → List String
  | 0, _, _, cur, acc => acc ++ [jsTrim ⟨cur.reverse⟩]
  | _ + 1, [], _, cur, acc => acc ++ [jsTrim ⟨cur.reverse⟩]
  | fuel + 1, '"' :: rest, inQ, cur, acc =>
    if inQ then
      match rest with
      | '"' :: rest2 => parseLineAux fuel rest2 true ('"' :: cur) acc
      | _ => parseLineAux fuel rest false cur acc
    else parseLineAux fuel rest true cur acc
  | fuel + 1, ',' :: rest, inQ, cur, acc =>
    if inQ then parseLineAux fuel rest true (',' :: cur) acc
    else parseLineAux fuel rest inQ [] (acc ++ [jsTrim ⟨cur.reverse⟩])
  | fuel + 1, c :: rest, inQ, cur, acc => parseLineAux fuel rest inQ (c :: cur) acc

def parseLine (line : String) : List String :=
  parseLineAux line.data.length line.data false [] []

/-- Models `text.split(/\r?\n/)`: split at every newline and strip one
carriage return immediately before it; a carriage return not followed
by a newline (including at end of input) is kept. -/
def splitLinesAux : List Char → List Char → List String
  | [], cur => [(⟨cur.reverse⟩ : String)]
  | '\n' :: rest, cur =>
    (match cur with
     | '\r' :: t => (⟨t.reverse⟩ : String)
     | _ => (⟨cur.reverse⟩ : String)) :: splitLinesAux rest []
  | c :: rest, cur => splitLinesAux rest (c :: cur)

def splitLines (text : String) : List String := splitLinesAux text.data []

/-- The meaningful lines of the input (source line 46): blank lines are
dropped before counting. -/
def nonBlankLines (text : String) : List String :=
  (splitLines text).filter (fun l => !(jsTrim l == ""))

/-- Row-object assembly (source lines 86-100): each header maps to the
positionally matching cell, missing cells read as the empty string. -/
def buildRow (headers : List String) (cells : List String) : Row :=
  headers.enum.foldl
    (fun (row : Row) p => objSet row p.2 (convertCell (jsTrim (cells.getD p.1 ""))))
    []

/-- Row filter (source line 103): keep the row only when its
"Lender Name" cell is truthy and trims to a non-empty string. -/
def rowKeep (row : Row) : Bool :=
  match getCell row "Lender Name" with
  | none => false
  | some v => jsTruthy v && !(jsTrim (cellToString v) == "")

def csvParseErrMsg : String :=
  "CSV parsing failed: CSV must have at least a header row and one data row"

/-- Models `parseCSV` (source lines 44-112): fatal format error below
two meaningful lines, otherwise header-driven row objects in input
order, rows without a lender name discarded. -/
def parseCSV (text : String) : Except String (List Row) :=
  let lines := nonBlankLines text
  if lines.length < 2 then Except.error csvParseErrMsg
  else
    match lines with
    | [] => Except.error csvParseErrMsg
    | header :: rest =>
      let headers := (parseLine header).map jsTrim
      Except.ok (rest.foldl
        (fun acc line =>
          let row := buildRow headers (parseLine line)
          if rowKeep row then acc ++ [row] else acc)
        [])

/-- The merchant criteria record built by the form handler (source
lines 505-513); the integer fields carry exact values. -/
structure MerchantCriteria where
  requestedPosition : JsNum
  tib : JsNum
  monthlyRevenue : JsNum
  fico : JsNum
  state : String
  industry : String
  isSoleProp : Bool
deriving DecidableEq, Repr

/-- Models `checkCustomRestrictions` (source lines 115-155). -/
def checkCustomRestrictions (lender : Row) (criteria : MerchantCriteria) : Option String :=
  let lenderName := jsToLower (strField lender "Lender Name")
  let merchantIndustry := jsToLower criteria.industry
  if strIncludes lenderName "lexio"
      && (strIncludes merchantIndustry "truck" || strIncludes merchantIndustry "transport")
      && criteria.requestedPosition ≥ 3 then
    some "Industry - Trucking 1st-2nd position only"
  else if strIncludes lenderName "fyncap"
      && (strIncludes merchantIndustry "truck" || strIncludes merchantIndustry "transport")
      && normalizeState criteria.state == "il" then
    some "Industry - Trucking not accepted in IL"
  else if strIncludes lenderName "blackbridge"
      && (strIncludes merchantIndustry "truck" || strIncludes merchantIndustry "transport")
      && normalizeState criteria.state == "il" then
    some "Industry - Trucking not accepted in IL"
  else if strIncludes lenderName "smarter merchant"
      && criteria.isSoleProp
      && ["il", "ar", "ny"].contains (normalizeState criteria.state) then
    some ("Industry - Sole props not accepted in " ++ criteria.state)
  else if strIncludes lenderName "idea financial"
      && strIncludes merchantIndustry "construction"
      && criteria.tib < 84 then
    some "Industry - Construction requires 7+ years TIB"
  else none

/-- Models `checkStateRestrictions` (source lines 157-171). -/
def checkStateRestrictions (lender : Row) (criteria : MerchantCriteria) : Option String :=
  let stateRestrictions := strField lender "State_Restrictions"
  if stateRestrictions == "" then none
  else
    let merchantState := jsTrim criteria.state
    let fullStateName := getFullStateName merchantState
    if strIncludes stateRestrictions merchantState
        || strIncludes stateRestrictions fullStateName then
      some ("State - " ++ stateRestrictions)
    else none

/-- Models `checkSolePropRestrictions` (source lines 173-185). -/
def checkSolePropRestrictions (lender : Row) : Option String :=
  let requirements := jsToLower (strField lender "Other_Key_Requirements")
  let prohibited := jsToLower (strField lender "Prohibited_Industries")
  let allText := requirements ++ " " ++ prohibited
  if strIncludes allText "no sole prop"
      || strIncludes allText "corp only"
      || strIncludes allText "sole props" then
    some "Sole Prop - Not accepted"
  else none

/-- Delimiter class of the tokenizing regex split on whitespace,
slash and comma. -/
def isDelim (c : Char) : Bool := isWs c || c = '/' || c = ','

/-- Models `String.prototype.split(/[\s\/,]+/)`: maximal delimiter
runs separate tokens; a leading or trailing run yields an empty token
(fuel-based so that it reduces in the kernel). -/
def splitTokensAux : Nat → List Char → List Char → List String → List String
  | 0, _, cur, acc => acc ++ [⟨cur.reverse⟩]
  | _ + 1, [], cur, acc => acc ++ [⟨cur.reverse⟩]
  | fuel + 1, c :: rest, cur, acc =>
    if isDelim c then splitTokensAux fuel (rest.dropWhile isDelim) [] (acc ++ [⟨cur.reverse⟩])
    else splitTokensAux fuel rest (c :: cur) acc

def splitTokens (s : String) : List String :=
  splitTokensAux s.data.length s.data [] []

/-- The keyword loop of `checkIndustryRestrictions` (source lines
195-200): first token longer than 3 characters contained in the
prohibited text blocks, unless that text mentions "case by case". -/
def industryKeywordHit (prohibited : String) : List String → Bool
  | [] => false
  | k :: rest =>
    if k.length > 3 && strIncludes prohibited k && !(strIncludes prohibited "case by case") then
      true
    else industryKeywordHit prohibited rest

/-- Models `checkIndustryRestrictions` (source lines 187-203). -/
def checkIndustryRestrictions (lender : Row) (criteria : MerchantCriteria) : Option String :=
  let prohibited := jsToLower (strField lender "Prohibited_Industries")
  if prohibited == "" then none
  else
    let merchantIndustry := jsToLower criteria.industry
    if industryKeywordHit prohibited (splitTokens merchantIndustry) then
      some ("Industry - " ++ templateCell (getCell lender "Prohibited_Industries"))
    else none

/-- The Min_TIB_Months threshold (source lines 207-210). -/
def tibCheck (lender : Row) (criteria : MerchantCriteria) : Option String :=
  match jsParseFloat (getCell lender "Min_TIB_Months") with
  | some minTib =>
    if criteria.tib < minTib then some ("TIB - Min " ++ numToString minTib ++ " months")
    else none
  | none => none

/-- Comma insertion after every third digit, seen from the right. -/
def groupDigitsGo : List Char → Nat → List Char
  | [], _ => []
  | c :: rest, k =>
    if k = 3 && !rest.isEmpty then c :: ',' :: groupDigitsGo rest 1
    else if k = 3 then c :: groupDigitsGo rest 1
    else c :: groupDigitsGo rest (k + 1)

/-- Digit grouping of `Number.prototype.toLocaleString` (en-US
default, thousands separated by commas). -/
def groupDigits (l : List Char) : List Char :=
  (groupDigitsGo l.reverse 1).reverse

/-- Models `Number.prototype.toLocaleString()` in the en-US default
locale: thousands grouping, at most three fraction digits. -/
def jsToLocaleString (q : JsNum) : String :=
  let sign := if q.num < 0 then "-" else ""
  let scaled := (q.num.natAbs * 1000 * 2 + q.den) / (q.den * 2)
  let ip := groupDigits (natToString (scaled / 1000)).data
  let fr := scaled % 1000
  if fr = 0 then sign ++ (⟨ip⟩ : String)
  else
    let f3 := natToCharsAux 4 fr []
    let padded := List.replicate (3 - f3.length) '0' ++ f3
    sign ++ (⟨ip⟩ : String) ++ "." ++ (⟨(padded.reverse.dropWhile (fun c => c = '0')).reverse⟩ : String)

/-- The Min_Monthly_Revenue threshold (source lines 212-216). -/
def revenueCheck (lender : Row) (criteria : MerchantCriteria) : Option String :=
  match jsParseFloat (getCell lender "Min_Monthly_Revenue") with
  | some minRevenue =>
    if criteria.monthlyRevenue < minRevenue then
      some ("Revenue - Min $" ++ jsToLocaleString minRevenue)
    else none
  | none => none

/-- The Min_FICO threshold with the 20-point tolerance (source lines
218-222). -/
def ficoCheck (lender : Row) (criteria : MerchantCriteria) : Option String :=
  match jsParseFloat (getCell lender "Min_FICO") with
  | some minFico =>
    if criteria.fico < minFico - 20 then
      some ("FICO - Min " ++ numToString minFico ++ " (with 20pt tolerance)")
    else none
  | none => none

/-- Models `checkMinimumRequirements` (source lines 205-225): TIB,
then revenue, then FICO; first violation wins. -/
def checkMinimumRequirements (lender : Row) (criteria : MerchantCriteria) : Option String :=
  match tibCheck lender criteria with
  | some r => some r
  | none =>
    match revenueCheck lender criteria with
    | some r => some r
    | none => ficoCheck lender criteria

/-- The first-objection combinator: `if (!blockingRule) blockingRule = f(...)`. -/
def firstOf (a b : Option String) : Option String :=
  match a with
  | some r => some r
  | none => b

/-- Terminal classification of one lender. -/
inductive Classification where
  | dropped
  | nonQual (name reason : String)
  | qual (lender : Row)
deriving DecidableEq

/-- Models the body of the per-lender loop of `processLenders` (source
lines 239-294): structural drops first, then the fixed rule chain. -/
def classifyLender (lender : Row) (criteria : MerchantCriteria) : Classification :=
  let lenderName := jsTrim (strField lender "Lender Name")
  if lenderName == "" || lenderName.length < 2 then .dropped
  else if strIncludes lenderName "$" || isAllDigits lenderName
      || strIncludes (jsToLower lenderName) "total"
      || strIncludes (jsToLower lenderName) "summary" then .dropped
  else
    match jsParseFloat (getCell lender "pos_min"), jsParseFloat (getCell lender "pos_max") with
    | some posMin, some posMax =>
      let b0 : Option String :=
        if criteria.requestedPosition < posMin || criteria.requestedPosition > posMax then
          some ("Position - Positions " ++ numToString posMin ++ "-" ++ numToString posMax)
        else none
      let b1 := firstOf b0 (checkCustomRestrictions lender criteria)
      let b2 := firstOf b1 (checkStateRestrictions lender criteria)
      let b3 := firstOf b2 (if criteria.isSoleProp then checkSolePropRestrictions lender else none)
      let b4 := firstOf b3 (checkIndustryRestrictions lender criteria)
      let b5 := firstOf b4 (checkMinimumRequirements lender criteria)
      match b5 with
      | some r => .nonQual lenderName r
      | none => .qual lender
    | _, _ => .dropped

/-- The engine's output: three buckets plus diagnostics (the embedded
checks are total, so the per-row catch never fires and the
diagnostics list stays empty). -/
structure EngineResult where
  qualified : List Row
  nonQualified : List (String × String)
  autoDroppedCount : Nat
  processingErrors : List String
deriving DecidableEq

def engineStep (criteria : MerchantCriteria) (acc : EngineResult) (lender : Row) : EngineResult :=
  match classifyLender lender criteria with
  | .dropped => { acc with autoDroppedCount := acc.autoDroppedCount + 1 }
  | .nonQual n r => { acc with nonQualified := acc.nonQualified ++ [(n, r)] }
  | .qual _ => { acc with qualified := acc.qualified ++ [lender] }

def emptyEngineResult : EngineResult := ⟨[], [], 0, []⟩

/-- Models `processLenders` (source lines 228-301): `none` plays the
early `displayError` return on missing or empty data. -/
def processLenders (data : List Row) (criteria : MerchantCriteria) : Option EngineResult :=
  if data.isEmpty then none
  else some (data.foldl (engineStep criteria) emptyEngineResult)

/-- Spec-order formulation of the position-bounds rule (4.3.1) as a
standalone pure check, for comparison with the engine's inline code. -/
def positionCheck (lender : Row) (criteria : MerchantCriteria) : Option String :=
  match jsParseFloat (getCell lender "pos_min"), jsParseFloat (getCell lender "pos_max") with
  | some posMin, some posMax =>
    if criteria.requestedPosition < posMin || criteria.requestedPosition > posMax then
      some ("Position - Positions " ++ numToString posMin ++ "-" ++ numToString posMax)
    else none
  | _, _ => none

/-- Rule 4.3.4 with its gate: evaluated only for sole proprietors. -/
def solePropGate (lender : Row) (criteria : MerchantCriteria) : Option String :=
  if criteria.isSoleProp then checkSolePropRestrictions lender else none

/-- The fixed rule order 4.3.1 - 4.3.6 of the specification. -/
def checksInOrder : List (Row → MerchantCriteria → Option String) :=
  [positionCheck, checkCustomRestrictions, checkStateRestrictions,
   solePropGate, checkIndustryRestrictions, checkMinimumRequirements]

/-- The reason of the first check in the fixed order that objects. -/
def firstObjection (lender : Row) (criteria : MerchantCriteria) : Option String :=
  checksInOrder.foldl (fun acc f => firstOf acc (f lender criteria)) none

/-- The structural-validation gate of the engine: a lender reaches rule
evaluation exactly when this holds (negation of the auto-drop tests). -/
def structurallyValid (lender : Row) : Bool :=
  let lenderName := jsTrim (strField lender "Lender Name")
  !(lenderName == "" || lenderName.length < 2)
  && !(strIncludes lenderName "$" || isAllDigits lenderName
       || strIncludes (jsToLower lenderName) "total"
       || strIncludes (jsToLower lenderName) "summary")
  && (jsParseFloat (getCell lender "pos_min")).isSome
  && (jsParseFloat (getCell lender "pos_max")).isSome

/-- Spec wording of the auto-drop conditions (4.4): invalid name or
missing/unparseable position bounds. -/
def autoDropSpec (l : Row) : Prop :=
  let name := jsTrim (strField l "Lender Name")
  name = "" ∨ name.length < 2
  ∨ strIncludes name "$" = true ∨ isAllDigits name = true
  ∨ strIncludes (jsToLower name) "total" = true
  ∨ strIncludes (jsToLower name) "summary" = true
  ∨ jsParseFloat (getCell l "pos_min") = none
  ∨ jsParseFloat (getCell l "pos_max") = none

-- Concrete demonstration data used by the witnesses.

def demoCrit : MerchantCriteria :=
  { requestedPosition := 2, tib := 24, monthlyRevenue := 100000, fico := 700,
    state := "tx", industry := "retail", isSoleProp := false }

def demoRow : Row :=
  [("Lender Name", CellVal.str "Acme Funding"),
   ("pos_min", CellVal.num 1), ("pos_max", CellVal.num 5)]

def demoResult : EngineResult := [demoRow].foldl (engineStep demoCrit) emptyEngineResult

def numericNameRow : Row :=
  [("Lender Name", CellVal.str "1234"),
   ("pos_min", CellVal.num 1), ("pos_max", CellVal.num 5)]

def lexioRow : Row :=
  [("Lender Name", CellVal.str "Lexio Capital"),
   ("pos_min", CellVal.num 1), ("pos_max", CellVal.num 4)]

def truckCrit : MerchantCriteria :=
  { demoCrit with industry := "trucking", requestedPosition := 3 }

def fico700Row : Row :=
  [("Lender Name", CellVal.str "Test Lender"), ("Min_FICO", CellVal.num 700)]

def noMinFicoRow : Row := [("Lender Name", CellVal.str "Test Lender")]

def critFico (f : JsNum) : MerchantCriteria := { demoCrit with fico := f }

-- Claim theorems.

/-- Claim C3: for a lender whose Min_FICO parses to m, the FICO check blocks
exactly when the merchant's fico is strictly below m - 20; a lender
with Min_FICO 700 does not block fico 680 and does block fico 679; an
absent or unparseable Min_FICO never blocks, even at fico 300. -/
theorem fico_tolerance_boundary :
    (∀ (l : Row) (c : MerchantCriteria) (m : JsNum),
        jsParseFloat (getCell l "Min_FICO") = some m →
        ((ficoCheck l c).isSome = true ↔ c.fico < m - 20))
    ∧ (∀ (l : Row) (c : MerchantCriteria),
        jsParseFloat (getCell l "Min_FICO") = none → ficoCheck l c = none)
    ∧ ficoCheck fico700Row (critFico 680) = none
    ∧ ficoCheck fico700Row (critFico 679) = some "FICO - Min 700 (with 20pt tolerance)"
    ∧ ficoCheck noMinFicoRow (critFico 300) = none := by
  refine ⟨?_, ?_, by decide, by decide, by decide⟩
  · intro l c m hm
    unfold ficoCheck
    rw [hm]
    by_cases h : c.fico < m - 20
    · simp [h]
    · simp [h]
  · intro l c hm
    unfold ficoCheck
    rw [hm]

/-- Witness for C3 at a concrete lender and merchant. -/
theorem fico_tolerance_boundary_witness :
    (((ficoCheck fico700Row (critFico 679)).isSome = true ↔ (critFico 679).fico < (700 : JsNum) - 20))
    ∧ ficoCheck noMinFicoRow (critFico 300) = none :=
  ⟨fico_tolerance_boundary.1 fico700Row (critFico 679) 700 (by decide),
   fico_tolerance_boundary.2.1 noMinFicoRow (critFico 300) (by decide)⟩

/-- Claim C5: the line parser honors quoted fields: the data row
`Acme,"Smith, and Co","He said ""hi"""` yields exactly the three
fields `Acme`, `Smith, and Co` and `He said "hi"`. -/
theorem quoted_field_parsing :
    parseLine "Acme,\"Smith, and Co\",\"He said \"\"hi\"\"\"" =
      ["Acme", "Smith, and Co", "He said \"hi\""] := by
  decide

/-- Claim C6: for each of the 50 known two-letter state codes (the values of
the abbreviation table), converting to the full state name and back
returns the original code. -/
theorem state_code_roundtrip :
    stateAbbreviations.length = 50
    ∧ ((stateAbbreviations.map (fun p => p.2)).all
        (fun c => normalizeState (getFullStateName c) == c)) = true := by
  exact ⟨rfl, by decide⟩

theorem engine_fold_counts (c : MerchantCriteria) :
    ∀ (data : List Row) (acc : EngineResult),
      (data.foldl (engineStep c) acc).qualified.length
        + (data.foldl (engineStep c) acc).nonQualified.length
        + (data.foldl (engineStep c) acc).autoDroppedCount
      = acc.qualified.length + acc.nonQualified.length + acc.autoDroppedCount + data.length := by
  intro data
  induction data with
  | nil => intro acc; simp
  | cons x data ih =>
    intro acc
    rw [List.foldl_cons, ih]
    unfold engineStep
    cases classifyLender x c <;> simp <;> omega

/-- Claim C1: every processed row lands in exactly one bucket, so the number
of qualified plus non-qualified lenders plus the auto-dropped count
equals the number of parsed rows. -/
theorem partition_completeness :
    ∀ (data : List Row) (c : MerchantCriteria) (r : EngineResult),
      processLenders data c = some r →
      r.qualified.length + r.nonQualified.length + r.autoDroppedCount = data.length := by
  intro data c r h
  unfold processLenders at h
  split at h
  · exact absurd h (by simp)
  · have hr : r = data.foldl (engineStep c) emptyEngineResult := by
      injection h with h2
      exact h2.symm
    subst hr
    have := engine_fold_counts c data emptyEngineResult
    simpa [emptyEngineResult] using this

/-- Witness for C1 on a one-row dataset. -/
theorem partition_completeness_witness :
    demoResult.qualified.length + demoResult.nonQualified.length
      + demoResult.autoDroppedCount = 1 :=
  partition_completeness [demoRow] demoCrit demoResult rfl

theorem engine_fold_qual_mem (c : MerchantCriteria) :
    ∀ (data : List Row) (acc : EngineResult) (l : Row),
      l ∈ (data.foldl (engineStep c) acc).qualified → l ∈ acc.qualified ∨ l ∈ data := by
  intro data
  induction data with
  | nil => intro acc l h; exact Or.inl h
  | cons x data ih =>
    intro acc l h
    rw [List.foldl_cons] at h
    rcases ih (engineStep c acc x) l h with hacc | hdata
    · unfold engineStep at hacc
      cases hcl : classifyLender x c <;> rw [hcl] at hacc
      · exact Or.inl hacc
      · exact Or.inl hacc
      · rcases List.mem_append.mp hacc with hin | hx
        · exact Or.inl hin
        · have hlx : l = x := List.mem_singleton.mp hx
          subst hlx
          exact Or.inr (List.mem_cons_self _ _)
    · exact Or.inr (List.mem_cons_of_mem _ hdata)

/-- Claim C9: the engine never mutates its input records; in this pure
embedding every record in the qualified output is, field for field,
one of the unmodified input records. -/
theorem no_input_mutation :
    ∀ (data : List Row) (c : MerchantCriteria) (r : EngineResult) (l : Row),
      processLenders data c = some r → l ∈ r.qualified → l ∈ data := by
  intro data c r l h hmem
  unfold processLenders at h
  split at h
  · exact absurd h (by simp)
  · have hr : r = data.foldl (engineStep c) emptyEngineResult := by
      injection h with h2
      exact h2.symm
    subst hr
    rcases engine_fold_qual_mem c data emptyEngineResult l hmem with hacc | hdata
    · exact absurd hacc (by simp [emptyEngineResult])
    · exact hdata

/-- Witness for C9 on a one-row dataset with a qualifying lender. -/
theorem no_input_mutation_witness : demoRow ∈ [demoRow] :=
  no_input_mutation [demoRow] demoCrit demoResult demoRow rfl (by decide)

/-- Claim C7: parsing fails exactly when the input has fewer than 2 non-blank
lines; on failure only the format error is returned (no partial
result), and with at least 2 non-blank lines the parser returns a row
sequence without throwing. -/
theorem parse_format_error :
    ∀ text : String,
      ((∃ rows, parseCSV text = Except.ok rows) ↔ 2 ≤ (nonBlankLines text).length)
      ∧ ((nonBlankLines text).length < 2 → parseCSV text = Except.error csvParseErrMsg) := by
  intro text
  constructor
  · constructor
    · rintro ⟨rows, hok⟩
      by_contra hlt
      push_neg at hlt
      have herr : parseCSV text = Except.error csvParseErrMsg := by
        simp only [parseCSV]
        rw [if_pos hlt]
      rw [herr] at hok
      exact Except.noConfusion hok
    · intro hge
      simp only [parseCSV]
      have h2 : ¬ (nonBlankLines text).length < 2 := by omega
      rw [if_neg h2]
      cases hnb : nonBlankLines text with
      | nil => rw [hnb] at hge; simp at hge
      | cons header rest => exact ⟨_, rfl⟩
  · intro hlt
    simp only [parseCSV]
    rw [if_pos hlt]

/-- Witness for C7: the empty input fails with the format error, a
two-line input parses. -/
theorem parse_format_error_witness :
    parseCSV "" = Except.error csvParseErrMsg
    ∧ (∃ rows, parseCSV "Lender Name,pos_min\nAcme Funding,1" = Except.ok rows) :=
  ⟨(parse_format_error "").2 (by decide),
   (parse_format_error "Lender Name,pos_min\nAcme Funding,1").1.mpr (by decide)⟩

theorem dropWhile_head_not (p : Char → Bool) :
    ∀ (l : List Char) (c : Char) (t : List Char), l.dropWhile p = c :: t → p c = false := by
  intro l
  induction l with
  | nil => intro c t h; simp [List.dropWhile] at h
  | cons a l ih =>
    intro c t h
    rw [List.dropWhile_cons] at h
    by_cases hp : p a = true
    · rw [if_pos hp] at h
      exact ih c t h
    · rw [if_neg hp] at h
      obtain ⟨h1, _⟩ := List.cons.injEq a l c t ▸ h
      rw [← h1]
      exact Bool.not_eq_true _ ▸ hp
      
theorem dropWhile_decomp (p : Char → Bool) (l : List Char) :
    ∃ pre, pre ++ l.dropWhile p = l := by
  induction l with
  | nil => exact ⟨[], rfl⟩
  | cons a l ih =>
    rw [List.dropWhile_cons]
    by_cases hp : p a = true
    · rw [if_pos hp]
      obtain ⟨pre, hpre⟩ := ih
      exact ⟨a :: pre, by rw [List.cons_append, hpre]⟩
    · rw [if_neg hp]
      exact ⟨[], rfl⟩

theorem skipWs_trimChars (l : List Char) : skipWs (trimChars l) = trimChars l := by
  unfold trimChars skipWs
  cases hd : ((l.dropWhile isWs).reverse.dropWhile isWs).reverse with
  | nil => rfl
  | cons c t =>
    obtain ⟨pre, hpre⟩ := dropWhile_decomp isWs (l.dropWhile isWs).reverse
    have hm2 : l.dropWhile isWs
        = ((l.dropWhile isWs).reverse.dropWhile isWs).reverse ++ pre.reverse := by
      have hrev := congrArg List.reverse hpre
      rw [List.reverse_append, List.reverse_reverse] at hrev
      exact hrev.symm
    rw [hd] at hm2
    have hc : isWs c = false :=
      dropWhile_head_not isWs l c (t ++ pre.reverse) (by rw [hm2]; rfl)
    rw [List.dropWhile_cons, hc]
    simp

theorem jsNumber_imp_parseFloat (s : String) (q : JsNum)
    (hs : skipWs s.data = s.data) (hne : ¬ s = "") (hq : jsNumberStr s = some q) :
    parseFloatStr s = some q := by
  unfold jsNumberStr at hq
  unfold parseFloatStr
  cases hp : parseDec (skipWs s.data) with
  | some pr =>
    obtain ⟨q2, rest⟩ := pr
    simp only [hp] at hq ⊢
    split at hq
    · exact hq
    · exact Option.noConfusion hq
  | none =>
    simp only [hp] at hq
    rw [hs] at hq
    split at hq
    · rename_i hnil
      exfalso
      apply hne
      cases s with
      | mk data =>
        simp only [String.data] at hnil
        subst hnil
        decide
    · exact Option.noConfusion hq

theorem jsNumberStr_grammar (s : String) (q : JsNum)
    (hq : jsNumberStr s = some q) : numberGrammar s = true := by
  unfold jsNumberStr at hq
  unfold numberGrammar
  cases hp : parseDec (skipWs s.data) with
  | some pr =>
    obtain ⟨q2, rest⟩ := pr
    simp only [hp] at hq
    split at hq
    · rename_i hrest
      by_cases hl : (skipWs s.data).isEmpty
      · simp [hl]
      · simp [hl, hp, hrest]
    · exact Option.noConfusion hq
  | none =>
    simp only [hp] at hq
    split at hq
    · rename_i hnil
      simp [hnil]
    · exact Option.noConfusion hq

/-- Claim C8, counterexample: the "number exactly when a finite decimal
literal" biconditional fails at the cell "0x10": the Number gate of the
program accepts the hex form, so parseFloat's value 0 is stored as a
number, although "0x10" does not parse as a decimal literal. -/
theorem cell_type_inference_cex :
    ¬ (convertCell (jsTrim "0x10") = CellVal.num 0 ↔
        (¬ jsTrim "0x10" = "" ∧ jsNumberStr (jsTrim "0x10") = some 0)) := by
  decide

/-- Claim C8 (amended): a cell is stored as a number exactly when its
trimmed value is non-empty, is non-NaN under the full JS Number string
grammar (which besides decimal literals accepts hex/octal/binary
integer and Infinity forms), and its parseFloat value rounds to a
finite double; the stored number is that parseFloat value, so "0x10"
stores the number 0 and an overflowing literal stays a string.  A
trimmed value that parses entirely as a decimal literal with a finite
value q is stored as the number q; in every other case the trimmed
string (including the empty string) is stored. -/
theorem cell_type_inference :
    ∀ (raw : String) (q : JsNum),
      (convertCell (jsTrim raw) = CellVal.num q ↔
        (¬ jsTrim raw = "" ∧ numberGrammar (jsTrim raw) = true
         ∧ parseFloatStr (jsTrim raw) = some q ∧ floatFinite q = true))
      ∧ ((¬ jsTrim raw = "" ∧ jsNumberStr (jsTrim raw) = some q ∧ floatFinite q = true) →
        convertCell (jsTrim raw) = CellVal.num q)
      ∧ ((jsTrim raw = "" ∨ numberGrammar (jsTrim raw) = false) →
        convertCell (jsTrim raw) = CellVal.str (jsTrim raw))
      ∧ ((parseFloatStr (jsTrim raw) = some q ∧ floatFinite q = false) →
        convertCell (jsTrim raw) = CellVal.str (jsTrim raw)) := by
  intro raw q
  refine ⟨⟨?_, ?_⟩, ?_, ?_, ?_⟩
  · intro hc
    by_cases hv : jsTrim raw = ""
    · rw [hv] at hc
      simp [convertCell] at hc
    · cases hg : numberGrammar (jsTrim raw) with
      | false => simp [convertCell, hg] at hc
      | true =>
        cases hpf : parseFloatStr (jsTrim raw) with
        | none => simp [convertCell, hg, hpf, hv] at hc
        | some n =>
          cases hf : floatFinite n with
          | false => simp [convertCell, hg, hpf, hf, hv] at hc
          | true =>
            simp [convertCell, hg, hpf, hf, hv] at hc
            subst hc
            exact ⟨hv, rfl, rfl, hf⟩
  · rintro ⟨hv, hg, hpf, hf⟩
    simp [convertCell, hv, hg, hpf, hf]
  · rintro ⟨hv, hn, hf⟩
    have hg := jsNumberStr_grammar (jsTrim raw) q hn
    have hpf := jsNumber_imp_parseFloat (jsTrim raw) q (skipWs_trimChars raw.data) hv hn
    simp [convertCell, hv, hg, hpf, hf]
  · intro hcase
    rcases hcase with hv | hg
    · rw [hv]
      rfl
    · simp [convertCell, hg]
  · rintro ⟨hpf, hf⟩
    by_cases hv : jsTrim raw = ""
    · rw [hv]
      rfl
    · cases hg : numberGrammar (jsTrim raw) with
      | false => simp [convertCell, hg]
      | true => simp [convertCell, hg, hpf, hf, hv]

/-- Witness for C8 at concrete cells: a plain decimal, a non-number,
the hex cell stored as the number 0, and an overflowing literal kept
as a string. -/
theorem cell_type_inference_witness :
    convertCell (jsTrim " 42 ") = CellVal.num 42
    ∧ convertCell (jsTrim "abc") = CellVal.str (jsTrim "abc")
    ∧ convertCell (jsTrim "0x10") = CellVal.num 0
    ∧ convertCell (jsTrim "1e309") = CellVal.str (jsTrim "1e309") :=
  ⟨(cell_type_inference " 42 " 42).2.1 ⟨by decide, by decide, by decide⟩,
   (cell_type_inference "abc" 0).2.2.1 (Or.inr (by decide)),
   (cell_type_inference "0x10" 0).1.mpr ⟨by decide, by decide, by decide, by decide⟩,
   (cell_type_inference "1e309" ⟨10 ^ 309, 1⟩).2.2.2 ⟨by decide, by decide⟩⟩

/-- Claim C10: a "Lender Name" cell that trims to a string coercing entirely
to the number 0 is stored as the number 0, and the row is then
discarded even though the cell is not blank; a row is kept exactly
when its stored lender-name value is truthy and trims non-empty. -/
theorem zero_lender_name_discarded :
    (∀ raw : String, ¬ jsTrim raw = "" → jsNumberStr (jsTrim raw) = some 0 →
        convertCell (jsTrim raw) = CellVal.num 0)
    ∧ (∀ row : Row, getCell row "Lender Name" = some (CellVal.num 0) → rowKeep row = false)
    ∧ (∀ row : Row, rowKeep row = true ↔
        ∃ v, getCell row "Lender Name" = some v ∧ jsTruthy v = true
          ∧ ¬ jsTrim (cellToString v) = "")
    ∧ parseCSV "Lender Name,pos_min\n0,1" = Except.ok [] := by
  refine ⟨?_, ?_, ?_, rfl⟩
  · intro raw hv hn
    have hsk : skipWs (jsTrim raw).data = (jsTrim raw).data := skipWs_trimChars raw.data
    have hpf := jsNumber_imp_parseFloat (jsTrim raw) 0 hsk hv hn
    have hg := jsNumberStr_grammar (jsTrim raw) 0 hn
    have hf : floatFinite 0 = true := by decide
    simp [convertCell, hpf, hv, hg, hf]
  · intro row hg
    unfold rowKeep
    rw [hg]
    rfl
  · intro row
    unfold rowKeep
    cases hg : getCell row "Lender Name" with
    | none => simp
    | some v => simp [Bool.and_eq_true]

/-- Witness for C10 at the cell "0". -/
theorem zero_lender_name_discarded_witness :
    convertCell (jsTrim "0") = CellVal.num 0
    ∧ rowKeep [("Lender Name", CellVal.num 0)] = false :=
  ⟨zero_lender_name_discarded.1 "0" (by decide) (by decide),
   zero_lender_name_discarded.2.1 [("Lender Name", CellVal.num 0)] (by decide)⟩

/-- Claim C2: for every structurally valid lender the engine's verdict is
produced by running the checks in the fixed order 4.3.1-4.3.6 (with
the sole-prop check gated on the isSoleProp flag) and taking the first
objection: the reported reason is that first objection, and absence of
objections means Qualified.  The embedding is a pure function, so
re-running on the same record and criteria is definitionally the same
result (determinism). -/
theorem first_objection_wins (l : Row) (c : MerchantCriteria)
    (h : structurallyValid l = true) :
    classifyLender l c = (match firstObjection l c with
      | some r => Classification.nonQual (jsTrim (strField l "Lender Name")) r
      | none => Classification.qual l) := by
  simp only [structurallyValid, Bool.and_eq_true] at h
  obtain ⟨⟨⟨h1, h2⟩, h3⟩, h4⟩ := h
  rw [Bool.not_eq_true'] at h1 h2
  rw [Option.isSome_iff_exists] at h3 h4
  obtain ⟨mn, hmn⟩ := h3
  obtain ⟨mx, hmx⟩ := h4
  simp only [classifyLender, firstObjection, checksInOrder, positionCheck, solePropGate,
    List.foldl_cons, List.foldl_nil, hmn, hmx, h1, h2, firstOf]
  rw [if_neg (fun hh => Bool.noConfusion hh), if_neg (fun hh => Bool.noConfusion hh)]

/-- Witness for C2: the Lexio Capital scenario (trucking at position 3)
goes through the ordered chain and reports the custom restriction. -/
theorem first_objection_wins_witness :
    classifyLender lexioRow truckCrit = (match firstObjection lexioRow truckCrit with
      | some r => Classification.nonQual (jsTrim (strField lexioRow "Lender Name")) r
      | none => Classification.qual lexioRow) :=
  first_objection_wins lexioRow truckCrit (by decide)

theorem dropped_iff_not_valid (l : Row) (c : MerchantCriteria) :
    classifyLender l c = Classification.dropped ↔ structurallyValid l = false := by
  by_cases h1 : (jsTrim (strField l "Lender Name") == ""
      || decide ((jsTrim (strField l "Lender Name")).length < 2)) = true
  · constructor
    · intro _
      simp [structurallyValid, h1]
    · intro _
      simp only [classifyLender]
      rw [if_pos h1]
  · rw [Bool.not_eq_true] at h1
    by_cases h2 : (strIncludes (jsTrim (strField l "Lender Name")) "$"
        || isAllDigits (jsTrim (strField l "Lender Name"))
        || strIncludes (jsToLower (jsTrim (strField l "Lender Name"))) "total"
        || strIncludes (jsToLower (jsTrim (strField l "Lender Name"))) "summary") = true
    · constructor
      · intro _
        simp [structurallyValid, h2]
      · intro _
        simp only [classifyLender, h1]
        rw [if_neg (fun hh => Bool.noConfusion hh), if_pos h2]
    · rw [Bool.not_eq_true] at h2
      cases hmn : jsParseFloat (getCell l "pos_min") with
      | none =>
        constructor
        · intro _
          simp [structurallyValid, hmn]
        · intro _
          simp only [classifyLender, h1, h2, hmn]
          rw [if_neg (fun hh => Bool.noConfusion hh), if_neg (fun hh => Bool.noConfusion hh)]
      | some mn =>
        cases hmx : jsParseFloat (getCell l "pos_max") with
        | none =>
          constructor
          · intro _
            simp [structurallyValid, hmx]
          · intro _
            simp only [classifyLender, h1, h2, hmn, hmx]
            rw [if_neg (fun hh => Bool.noConfusion hh), if_neg (fun hh => Bool.noConfusion hh)]
        | some mx =>
          constructor
          · intro hd
            exfalso
            simp only [classifyLender, h1, h2, hmn, hmx] at hd
            rw [if_neg (fun hh => Bool.noConfusion hh),
              if_neg (fun hh => Bool.noConfusion hh)] at hd
            split at hd <;> exact Classification.noConfusion hd
          · intro hv
            exfalso
            simp [structurallyValid, h1, h2, hmn, hmx] at hv

theorem autoDropSpec_iff_not_valid (l : Row) :
    autoDropSpec l ↔ structurallyValid l = false := by
  simp only [autoDropSpec, structurallyValid]
  constructor
  · intro h
    rcases h with h | h | h | h | h | h | h | h <;> simp [h]
  · intro h
    by_contra hno
    push_neg at hno
    obtain ⟨n1, n2, n3, n4, n5, n6, n7, n8⟩ := hno
    simp [n1, n2, n3, n4, n5, n6, n7, n8, Option.isSome_iff_ne_none] at h

/-- Claim C4: a lender is AutoDropped, before any rule check runs, exactly
when its trimmed name is blank or shorter than 2 characters, contains
the currency symbol, is purely numeric, case-insensitively contains
"total" or "summary", or pos_min/pos_max is missing or unparseable; in
particular the row with name "1234" and valid position bounds is
AutoDropped. -/
theorem auto_dropped_iff :
    (∀ (l : Row) (c : MerchantCriteria),
        classifyLender l c = Classification.dropped ↔ autoDropSpec l)
    ∧ (∀ c : MerchantCriteria, classifyLender numericNameRow c = Classification.dropped) := by
  constructor
  · intro l c
    rw [dropped_iff_not_valid l c]
    exact (autoDropSpec_iff_not_valid l).symm
  · intro c
    rfl
